import Mathlib

/-
Verification development for the KermHost backend (Express + Supabase + Heroku).

The definitions below are a shallow embedding of the route handlers and helper
functions of the repository:

* the Heroku account allocator and usage counter
  (src/unnamed/part_003, getAvailableHerokuAccount / updateHerokuUsage);
* the deployment creation route and the detached provisioning sequence with its
  failure compensation (src/unnamed/part_003, router.post /deploy and
  deployToHeroku);
* the environment-variable reconfiguration route
  (src/unnamed/part_003, router.put /update-env/:id);
* the deployment deletion route (src/unnamed/part_003, router.delete /delete/:id);
* the coin transfer and daily-claim routes (src/routes/coin.js);
* the signup and email-verification routes (src/unnamed/part_002);
* the emergency stop-all-bots maintenance route (src/unnamed/part_004).

The database is modelled as explicit lists of rows; each route handler is a pure
function from a database state (plus request data and the outcomes of external
Heroku calls, which are parameters) to an outcome and a new state.  Supabase
`.eq` updates are modelled as a map over the corresponding table that rewrites
every row matching the predicate.  The `increment_coins` stored procedure and
the `supabase.raw` SQL expressions are not part of src/; following the spec
(section 4.3: the balance delta is applied to the user's denormalized balance)
they are modelled as plain arithmetic on the `coins` / `used_count` column.
Message strings from the source are transliterated to ASCII; no claim depends
on the exact bytes of a message.  Timestamps are in integer milliseconds, as in
the JavaScript `Date` arithmetic of the source.
-/

namespace KermHost

/-- A row of the `users` table (the columns the embedded routes touch). -/
structure User where
  id : Nat
  email : String
  coins : Int
  is_verified : Bool
  referral_code : String
  referred_by : Option Nat
  verification_code : Option String
deriving DecidableEq

/-- A declared environment variable of a bot's `kerm_json.env` schema:
an optional default `value` and an optional `required` flag. -/
structure EnvConfig where
  value : Option String
  required : Option Bool
deriving DecidableEq

/-- A row of the `bots` table. `env_schema` models `kerm_json?.env` (absent when
the bot declares no schema). -/
structure Bot where
  id : Nat
  name : String
  cost : Option Int
  is_approved : Bool
  github_repo : String
  env_schema : Option (List (String × EnvConfig))
deriving DecidableEq

/-- A row of the `heroku_accounts` table.  `used_count` and `max_deployments`
are nullable columns; the source reads them with the JavaScript defaults
`used_count || 0` and `max_deployments || 5`. -/
structure HerokuAccount where
  id : Nat
  api_key : String
  is_active : Bool
  used_count : Option Int
  max_deployments : Option Int
deriving DecidableEq

/-- The deployment status values written by the source. -/
inductive DeployStatus where
  | pending
  | configuring
  | active
  | failed
  | stopped
deriving DecidableEq

/-- A row of the `deployments` table. -/
structure Deployment where
  id : Nat
  user_id : Nat
  bot_id : Nat
  status : DeployStatus
  cost : Int
  heroku_account_id : Nat
  heroku_app_name : Option String
  env_variables : Option (List (String × String))
  logs : String
deriving DecidableEq

/-- A row of the `coin_transactions` table (a Ledger Entry). -/
structure CoinTx where
  sender_id : Option Nat
  receiver_id : Option Nat
  amount : Int
  tx_type : String
  descr : String
  created_at : Nat
deriving DecidableEq

/-- A row of the `referrals` table. -/
structure Referral where
  referrer_id : Nat
  referred_id : Nat
deriving DecidableEq

/-- The database state: one list of rows per table the embedded routes touch. -/
structure Db where
  users : List User
  bots : List Bot
  accounts : List HerokuAccount
  deployments : List Deployment
  txs : List CoinTx
  referrals : List Referral
deriving DecidableEq

/-- `account.used_count || 0`, as read by the source. -/
def usedOf (a : HerokuAccount) : Int := a.used_count.getD 0

/-- `account.max_deployments || 5`, the default used in the availability scan
of `getAvailableHerokuAccount` and in the capacity check of the deploy route.
JavaScript `||` treats 0 as falsy, so a stored 0 defaults to 5 exactly like a
null column (and a zero-max account is therefore scanned as having capacity
5, even though its raw `max_deployments` is 0). -/
def maxOf (a : HerokuAccount) : Int :=
  match a.max_deployments with
  | none => 5
  | some v => if v = 0 then 5 else v

/-- `(a.max_deployments || 0) - (a.used_count || 0)`: the spare capacity used by
the saturated-fallback comparator (note the fallback defaults `max_deployments`
to 0, unlike the availability scan which defaults it to 5). -/
def capacityOf (a : HerokuAccount) : Int :=
  a.max_deployments.getD 0 - a.used_count.getD 0

/-- Ordering of accounts by `used_count` ascending (the `order by used_count
ascending` of the allocator's query; a null `used_count` sorts as 0). -/
def usedLe (a b : HerokuAccount) : Prop := usedOf a ≤ usedOf b

instance : DecidableRel usedLe :=
  fun a b => inferInstanceAs (Decidable (usedOf a ≤ usedOf b))

instance : IsTrans HerokuAccount usedLe :=
  ⟨fun _ _ _ h1 h2 => le_trans h1 h2⟩

instance : IsTotal HerokuAccount usedLe :=
  ⟨fun a b => le_total (usedOf a) (usedOf b)⟩

/-- Ordering of accounts by spare capacity descending (the comparator
`capacityB - capacityA` of the saturated fallback). -/
def capGe (a b : HerokuAccount) : Prop := capacityOf b ≤ capacityOf a

instance : DecidableRel capGe :=
  fun a b => inferInstanceAs (Decidable (capacityOf b ≤ capacityOf a))

instance : IsTrans HerokuAccount capGe :=
  ⟨fun _ _ _ h1 h2 => le_trans h2 h1⟩

instance : IsTotal HerokuAccount capGe :=
  ⟨fun a b => le_total (capacityOf b) (capacityOf a)⟩

/-- `(account.used_count || 0) < (account.max_deployments || 5)`: the
availability test of the allocator's scan. -/
def hasCapacity (a : HerokuAccount) : Bool := decide (usedOf a < maxOf a)

/-- The active accounts ordered by `used_count` ascending, as returned by the
allocator's database query (`eq is_active true`, `order used_count asc`;
insertion sort stands in for the store's stable ordering). -/
def activeAccountsSorted (pool : List HerokuAccount) : List HerokuAccount :=
  List.insertionSort usedLe (pool.filter (fun a => a.is_active))

/-- `getAvailableHerokuAccount` of src/unnamed/part_003: scan the active
accounts in `used_count` ascending order and return the first one with spare
capacity; if none has capacity, return the head of the pool re-sorted by spare
capacity descending; signal an error (`none`, for the thrown
`Aucun compte Heroku disponible`) only when there is no active account. -/
def getAvailableHerokuAccount (pool : List HerokuAccount) : Option HerokuAccount :=
  let accounts := activeAccountsSorted pool
  if accounts.isEmpty then none
  else
    match accounts.find? hasCapacity with
    | some a => some a
    | none => (List.insertionSort capGe accounts).head?

/-- Find a user row by id (the `.eq id` single-row read used by the routes). -/
def findUser (users : List User) (uid : Nat) : Option User :=
  users.find? (fun u => u.id == uid)

/-- The `coins` balance of a user, when the row exists. -/
def userCoins (users : List User) (uid : Nat) : Option Int :=
  (findUser users uid).map (fun u => u.coins)

/-- Modelled from the spec: the `increment_coins` stored procedure (and the
`supabase.raw (coins + n)` update of the signup route) is not under src/;
per spec section 4.3 the delta is applied to the user's denormalized balance.
The update rewrites every row whose id matches, like a SQL `update where`. -/
def incrementCoins (users : List User) (uid : Nat) (delta : Int) : List User :=
  users.map fun u => if u.id == uid then { u with coins := u.coins + delta } else u

/-- An absolute write of the `coins` column
(`update { coins: req.user.coins - cost } eq id`). -/
def setCoins (users : List User) (uid : Nat) (v : Int) : List User :=
  users.map fun u => if u.id == uid then { u with coins := v } else u

/-- Find an account row by id. -/
def findAccount (accs : List HerokuAccount) (aid : Nat) : Option HerokuAccount :=
  accs.find? (fun a => a.id == aid)

/-- `updateHerokuUsage` of src/unnamed/part_003: read the account's
`used_count`, then write back `used_count + 1` on increment or
`Math.max(0, used_count - 1)` on decrement; do nothing when the row is
missing. -/
def updateHerokuUsage (accs : List HerokuAccount) (aid : Nat) (increment : Bool) :
    List HerokuAccount :=
  match findAccount accs aid with
  | none => accs
  | some acct =>
    let newCount : Int :=
      if increment then acct.used_count.getD 0 + 1 else max 0 (acct.used_count.getD 0 - 1)
    accs.map fun a => if a.id == aid then { a with used_count := some newCount } else a

/-- Find a deployment row by id. -/
def findDeployment (deps : List Deployment) (did : Nat) : Option Deployment :=
  deps.find? (fun d => d.id == did)

/-- A supabase `update ... eq id` on the deployments table: rewrite every row
whose id matches. -/
def updateDeployments (deps : List Deployment) (did : Nat) (f : Deployment → Deployment) :
    List Deployment :=
  deps.map fun d => if d.id == did then f d else d

/-- Outcomes of the deployment-creation route. -/
inductive DeployOutcome where
  | success (deploymentId : Nat)
  | insufficientCoins
  | botNotFound
  | noCapacity
  | serverError
deriving DecidableEq

/-- The deployment row inserted by the deploy route: status `pending`, the
request-body cost, the allocated account, and `env_variables` initialised to an
empty map exactly when the bot declares a `kerm_json.env` schema. -/
def newDeploymentRow (newId userId botId : Nat) (c : Int) (acctId : Nat) (bot : Bot) :
    Deployment :=
  { id := newId, user_id := userId, bot_id := botId, status := DeployStatus.pending,
    cost := c, heroku_account_id := acctId, heroku_app_name := none,
    env_variables := if bot.env_schema.isSome then some [] else none,
    logs := "Demarrage du deploiement...\n" }

/-- The `deployment` Ledger Entry written by the deploy route: sender is the
user, receiver is null, the amount is the request-body cost. -/
def deploymentDebitTx (userId : Nat) (c : Int) (bot : Bot) (now : Nat) : CoinTx :=
  { sender_id := some userId, receiver_id := none, amount := c,
    tx_type := "deployment", descr := "Deploiement de " ++ bot.name, created_at := now }

/-- The `router.post /deploy` handler of src/unnamed/part_003 up to its HTTP
response (the detached provisioning continuation is `deployToHeroku` below).
In request order: the insufficient-coins check against the request-body `cost`,
the approved-bot lookup, the account allocation (an allocator error propagates
to the catch-all 500), the capacity re-check, then the four writes: insert the
deployment row, set the user's coins to `req.user.coins - cost`, increment the
account's usage, insert the debit Ledger Entry. -/
def deployRoute (db : Db) (userId botId : Nat) (c : Int) (newId : Nat) (now : Nat) :
    DeployOutcome × Db :=
  match findUser db.users userId with
  | none => (DeployOutcome.serverError, db)
  | some user =>
    if user.coins < c then (DeployOutcome.insufficientCoins, db)
    else
      match db.bots.find? (fun b => b.id == botId && b.is_approved) with
      | none => (DeployOutcome.botNotFound, db)
      | some bot =>
        match getAvailableHerokuAccount db.accounts with
        | none => (DeployOutcome.serverError, db)
        | some acct =>
          if maxOf acct ≤ usedOf acct then (DeployOutcome.noCapacity, db)
          else
            let dep := newDeploymentRow newId userId botId c acct.id bot
            let db1 := { db with deployments := db.deployments ++ [dep] }
            let db2 := { db1 with users := setCoins db1.users userId (user.coins - c) }
            let db3 := { db2 with accounts := updateHerokuUsage db2.accounts acct.id true }
            let db4 := { db3 with txs := db3.txs ++ [deploymentDebitTx userId c bot now] }
            (DeployOutcome.success newId, db4)

/-- Outcomes of the external Heroku calls made by the provisioning sequence:
`none` means the call succeeded, `some msg` means it threw with message
`msg`. -/
structure ProvisionOutcomes where
  createApp : Option String
  deployFromGithub : Option String
  setConfigVars : Option String
deriving DecidableEq

/-- Replace the deployments table of a state (notation helper for stating
intermediate states of the provisioning sequence). -/
def withDeployments (db : Db) (deps : List Deployment) : Db :=
  { db with deployments := deps }

/-- The log text written by the failure handler of `deployToHeroku`
(transliterated). -/
def failLogs (msg : String) : String :=
  "X Erreur lors du deploiement:\n" ++ msg ++ "\n\nContactez l administrateur."

/-- The catch block of `deployToHeroku`: set the deployment's status to
`failed` and overwrite its log with the error text; re-read the deployment's
`user_id` and `cost` and, when found, credit the cost back to the user's
balance via the `increment_coins` procedure (no Ledger Entry is inserted);
finally decrement the account's usage counter. -/
def deployFailHandler (db : Db) (did : Nat) (acctId : Nat) (msg : String) : Db :=
  let deps1 := updateDeployments db.deployments did
    (fun d => { d with status := DeployStatus.failed, logs := failLogs msg })
  let db1 := { db with deployments := deps1 }
  match findDeployment db1.deployments did with
  | none => { db1 with accounts := updateHerokuUsage db1.accounts acctId false }
  | some dep =>
    let db2 := { db1 with users := incrementCoins db1.users dep.user_id dep.cost }
    { db2 with accounts := updateHerokuUsage db2.accounts acctId false }

/-- The default environment variables pushed during provisioning: every schema
entry whose `config.value` is truthy (present and non-empty). -/
def defaultEnvVars (bot : Bot) : List (String × String) :=
  (bot.env_schema.getD []).filterMap fun kc =>
    match kc.2.value with
    | some v => if v = "" then none else some (kc.1, v)
    | none => none

/-- Whether the provisioning sequence raises an exception, for a given bot and
external-call outcomes: createApp or deployFromGithub throws, or the bot has
truthy default variables and setConfigVars throws. -/
def provisionRaises (bot : Bot) (ext : ProvisionOutcomes) : Bool :=
  ext.createApp.isSome || ext.deployFromGithub.isSome ||
    (bot.env_schema.isSome && !(defaultEnvVars bot).isEmpty && ext.setConfigVars.isSome)

/-- The first log update of the provisioning sequence: record the app name. -/
def provisionStep0 (appName : String) (d : Deployment) : Deployment :=
  { d with logs := "Creation de l application Heroku...\n",
           heroku_app_name := some appName }

/-- The log update after the Heroku app is created. -/
def provisionStep1 (d : Deployment) : Deployment :=
  { d with logs := "Application creee. Deploiement depuis GitHub...\n" }

/-- The update after the GitHub build succeeds: status `configuring`. -/
def provisionStep2 (d : Deployment) : Deployment :=
  { d with status := DeployStatus.configuring,
           logs := "Deploiement reussi. Configuration des variables...\n" }

/-- The detached provisioning sequence `deployToHeroku` of
src/unnamed/part_003: record the app name, create the Heroku app, deploy from
GitHub (status `configuring`), push the truthy default environment variables
when the bot declares any, then mark the deployment `active`; on the first
external failure divert to `deployFailHandler`.  Each `logs:` update of the
source replaces the previous log text.  (The `heroku_app_id` bookkeeping
column is not modelled; no claim mentions it.) -/
def deployToHeroku (db : Db) (did : Nat) (appName : String) (bot : Bot) (acctId : Nat)
    (ext : ProvisionOutcomes) : Db :=
  let dbA := withDeployments db (updateDeployments db.deployments did (provisionStep0 appName))
  match ext.createApp with
  | some msg => deployFailHandler dbA did acctId msg
  | none =>
    let dbB := withDeployments dbA (updateDeployments dbA.deployments did provisionStep1)
    match ext.deployFromGithub with
    | some msg => deployFailHandler dbB did acctId msg
    | none =>
      let dbC := withDeployments dbB (updateDeployments dbB.deployments did provisionStep2)
      if bot.env_schema.isSome && !(defaultEnvVars bot).isEmpty then
        match ext.setConfigVars with
        | some msg => deployFailHandler dbC did acctId msg
        | none =>
          let depsD := updateDeployments dbC.deployments did
            (fun d => { d with env_variables := some (defaultEnvVars bot),
                               logs := "Variables d environnement configurees...\n" })
          let dbD := { dbC with deployments := depsD }
          let depsE := updateDeployments dbD.deployments did
            (fun d => { d with status := DeployStatus.active,
                               logs := "OK Deploiement termine avec succes !" })
          { dbD with deployments := depsE }
      else
        let depsE := updateDeployments dbC.deployments did
          (fun d => { d with status := DeployStatus.active,
                             logs := "OK Deploiement termine avec succes !" })
        { dbC with deployments := depsE }

/-- The deploy request followed by its detached provisioning continuation,
exactly as the route schedules it (same bot, same allocated account). -/
def deployThenProvision (db : Db) (userId botId : Nat) (c : Int) (newId now : Nat)
    (appName : String) (bot : Bot) (acctId : Nat) (ext : ProvisionOutcomes) : Db :=
  deployToHeroku (deployRoute db userId botId c newId now).2 newId appName bot acctId ext

/-- Outcomes of the coin transfer route. -/
inductive SendOutcome where
  | success
  | missingFields
  | invalidAmount
  | insufficient
  | selfSend
  | receiverNotFound
  | receiverNotVerified
  | serverError
deriving DecidableEq

/-- The `transfer` Ledger Entry written by the send route. -/
def transferTx (senderId receiverId : Nat) (a : Int) (now : Nat) : CoinTx :=
  { sender_id := some senderId, receiver_id := some receiverId, amount := a,
    tx_type := "transfer", descr := "Transfert de coins", created_at := now }

/-- The `router.post /send` handler of src/routes/coin.js.  In request order:
missing-fields check (a zero amount is falsy in JavaScript and also rejected
here), positive-amount check, sufficient-balance check against the sender's
row, self-send check by email, receiver lookup by email, receiver-verified
check; then insert the `transfer` Ledger Entry and apply the two balance
deltas via `increment_coins`.  The amount is taken after `parseInt`; a
non-numeric body is not modelled. -/
def sendCoins (db : Db) (senderId : Nat) (receiverEmail : String) (amount : Int)
    (now : Nat) : SendOutcome × Db :=
  match findUser db.users senderId with
  | none => (SendOutcome.serverError, db)
  | some sender =>
    if receiverEmail == "" || amount == 0 then (SendOutcome.missingFields, db)
    else if amount ≤ 0 then (SendOutcome.invalidAmount, db)
    else if sender.coins < amount then (SendOutcome.insufficient, db)
    else if receiverEmail == sender.email then (SendOutcome.selfSend, db)
    else
      match db.users.find? (fun u => u.email == receiverEmail) with
      | none => (SendOutcome.receiverNotFound, db)
      | some receiver =>
        if !receiver.is_verified then (SendOutcome.receiverNotVerified, db)
        else
          let db1 := { db with txs := db.txs ++ [transferTx senderId receiver.id amount now] }
          let db2 := { db1 with users := incrementCoins db1.users senderId (-amount) }
          (SendOutcome.success, { db2 with users := incrementCoins db2.users receiver.id amount })

/-- The creation time of the user's most recent `daily` Ledger Entry (the
`order by created_at desc limit 1` read of the claim routes). -/
def lastDailyTime (txs : List CoinTx) (uid : Nat) : Option Nat :=
  ((txs.filter (fun t => t.receiver_id == some uid && t.tx_type == "daily")).map
    (fun t => t.created_at)).max?

/-- The `daily` Ledger Entry written by a successful claim. -/
def dailyTx (uid : Nat) (reward : Int) (now : Nat) : CoinTx :=
  { sender_id := none, receiver_id := some uid, amount := reward, tx_type := "daily",
    descr := "Reclamation quotidienne de coins", created_at := now }

/-- Milliseconds in 24 hours; `hoursSinceLastClaim < 24` of the source is
equivalent to `now - last < msPerDay` on integer millisecond timestamps. -/
def msPerDay : Nat := 86400000

/-- The `router.post /claim-daily` handler of src/routes/coin.js: reject when a
prior `daily` entry exists less than 24 hours old, otherwise insert the `daily`
Ledger Entry and credit the reward via `increment_coins`. -/
def claimDaily (db : Db) (uid : Nat) (now : Nat) (reward : Int) : Bool × Db :=
  let allowed : Bool :=
    match lastDailyTime db.txs uid with
    | none => true
    | some t => decide (msPerDay ≤ now - t)
  if allowed then
    let db1 := { db with txs := db.txs ++ [dailyTx uid reward now] }
    (true, { db1 with users := incrementCoins db1.users uid reward })
  else (false, db)

/-- Result of the signup route: whether a user row was created, its id, and
the new state. -/
structure SignupResult where
  ok : Bool
  createdUserId : Option Nat
  db : Db
deriving DecidableEq

/-- The `referral` Ledger Entry credited to the referrer by the signup route of
src/unnamed/part_002 (amount hard-coded to 10 there). -/
def referralTx (referrerId : Nat) (email : String) (now : Nat) : CoinTx :=
  { sender_id := none, receiver_id := some referrerId, amount := 10,
    tx_type := "referral", descr := "Parrainage de " ++ email, created_at := now }

/-- The user row inserted by the signup route. -/
def signupRow (email : String) (coins : Int) (newRefCode : String)
    (referredBy : Option Nat) (verifCode : String) (newUserId : Nat) : User :=
  { id := newUserId, email := email, coins := coins, is_verified := false,
    referral_code := newRefCode, referred_by := referredBy,
    verification_code := some verifCode }

/-- The `router.post /signup` handler of src/unnamed/part_002: after the
duplicate-email check, resolve the referral code; the referred user is created
with 20 initial coins (10 welcome + 10 bonus) instead of 10 and is not
verified; when a referrer exists the route immediately inserts the `referrals`
row, inserts the `referral` Ledger Entry for the referrer and increments the
referrer's balance by 10 (the `supabase.raw (coins + 10)` update).  The email
is assumed already lowercased and the referral code already uppercased, as the
source normalises both before the lookups. -/
def signup (db : Db) (email pw _username : String) (referralCode : Option String)
    (newUserId : Nat) (verifCode newRefCode : String) (now : Nat) : SignupResult :=
  if email == "" || pw == "" then ⟨false, none, db⟩
  else
    match db.users.find? (fun u => u.email == email) with
    | some _ => ⟨false, none, db⟩
    | none =>
      let referrer := referralCode.bind
        (fun rc => db.users.find? (fun u => u.referral_code == rc))
      let initialCoins : Int := if referrer.isSome then 20 else 10
      let newUser : User := signupRow email initialCoins newRefCode
        (referrer.map (fun r => r.id)) verifCode newUserId
      let db1 := { db with users := db.users ++ [newUser] }
      match referrer with
      | none => ⟨true, some newUserId, db1⟩
      | some ref =>
        let newRefRow : Referral := { referrer_id := ref.id, referred_id := newUserId }
        let db2 := { db1 with referrals := db1.referrals ++ [newRefRow] }
        let db3 := { db2 with txs := db2.txs ++ [referralTx ref.id email now] }
        ⟨true, some newUserId, { db3 with users := incrementCoins db3.users ref.id 10 }⟩

/-- Outcomes of the email-verification route. -/
inductive VerifyOutcome where
  | ok
  | notFound
  | alreadyVerified
  | wrongCode
deriving DecidableEq

/-- The `router.post /verify` handler of src/unnamed/part_002: look the user up
by email, reject when already verified or when the code mismatches, otherwise
mark the row verified and clear the code.  It writes no Ledger Entry and
touches no balance. -/
def verifyEmail (db : Db) (email code : String) : VerifyOutcome × Db :=
  match db.users.find? (fun u => u.email == email) with
  | none => (VerifyOutcome.notFound, db)
  | some u =>
    if u.is_verified then (VerifyOutcome.alreadyVerified, db)
    else if u.verification_code ≠ some code then (VerifyOutcome.wrongCode, db)
    else (VerifyOutcome.ok, { db with users := db.users.map fun v =>
        if v.id == u.id then { v with is_verified := true, verification_code := none } else v })

/-- JavaScript `a || b` on strings: the empty string is falsy. -/
def jsOr (a b : String) : String := if a = "" then b else a

/-- `deployment.bot.cost || 10` of the update-env route: a null (and, by
JavaScript falsiness, a zero) stored cost defaults to 10. -/
def jsOrCost (c : Option Int) : Int :=
  match c with
  | none => 10
  | some v => if v = 0 then 10 else v

/-- The validation loop of the update-env route: for each schema entry, the
value is `envVars[key] || config.value || empty`; reject on the first entry
with `config.required !== false` and a falsy value, otherwise collect every
validated pair in schema order. -/
def validateEnvVars : List (String × EnvConfig) → List (String × String) →
    Except String (List (String × String))
  | [], _ => Except.ok []
  | (k, cfg) :: rest, envVars =>
    let value := jsOr (((envVars.find? (fun p => p.1 == k)).map (fun p => p.2)).getD "")
      (cfg.value.getD "")
    if cfg.required ≠ some false ∧ value = "" then Except.error k
    else
      match validateEnvVars rest envVars with
      | Except.error e => Except.error e
      | Except.ok vs => Except.ok ((k, value) :: vs)

/-- The object fetched by the update-env route's select
`bot:bots(cost, kerm_json), heroku_account_id`: only those columns are
projected, so the `heroku_app_name` property of the fetched object is
undefined — modelled as a field that is always `none`. -/
structure UpdateEnvRow where
  bot_cost : Option Int
  bot_env : Option (List (String × EnvConfig))
  heroku_account_id : Nat
  heroku_app_name : Option String
deriving DecidableEq

/-- The ownership-checked fetch of the update-env route.  The select string of
the source names only `bot:bots(cost, kerm_json)` and `heroku_account_id`, so
the returned object carries no `heroku_app_name` (compare the restart and
delete routes of the same file, which do select it). -/
def fetchUpdateEnvRow (db : Db) (depId userId : Nat) : Option UpdateEnvRow :=
  (db.deployments.find? (fun d => d.id == depId && d.user_id == userId)).bind fun d =>
    (db.bots.find? (fun b => b.id == d.bot_id)).map fun b =>
      { bot_cost := b.cost, bot_env := b.env_schema,
        heroku_account_id := d.heroku_account_id, heroku_app_name := none }

/-- Outcomes of the update-env route. -/
inductive UpdateEnvOutcome where
  | success (newCoins : Int)
  | notFound
  | insufficient
  | missingVar (key : String)
  | herokuError
  | serverError
deriving DecidableEq

/-- Result of the update-env route; `herokuAppArg` records the application-name
argument handed to the external `setConfigVars` / `restartApp` calls when they
were reached (`some none` = the calls were made with an undefined name). -/
structure UpdateEnvResult where
  outcome : UpdateEnvOutcome
  db : Db
  herokuAppArg : Option (Option String)
deriving DecidableEq

/-- The second `deployment` Ledger Entry written by the update-env route. -/
def updateEnvTx (userId : Nat) (c : Int) (now : Nat) : CoinTx :=
  { sender_id := some userId, receiver_id := none, amount := c,
    tx_type := "deployment", descr := "Mise a jour des variables", created_at := now }

/-- The `router.put /update-env/:id` handler of src/unnamed/part_003: fetch the
owned deployment (projected as `fetchUpdateEnvRow`), check the balance against
`bot.cost || 10`, fetch the account, validate the variables against the
schema, push them and restart via Heroku (`extOk` is the joint outcome of the
two external calls, which receive `row.heroku_app_name` — an undefined value —
as application name), then persist the variables, debit the coins and insert
the Ledger Entry. -/
def updateEnvRoute (db : Db) (depId userId : Nat) (envVars : List (String × String))
    (extOk : Bool) (now : Nat) : UpdateEnvResult :=
  match fetchUpdateEnvRow db depId userId with
  | none => ⟨UpdateEnvOutcome.notFound, db, none⟩
  | some row =>
    let cost := jsOrCost row.bot_cost
    match findUser db.users userId with
    | none => ⟨UpdateEnvOutcome.serverError, db, none⟩
    | some user =>
      if user.coins < cost then ⟨UpdateEnvOutcome.insufficient, db, none⟩
      else
        match findAccount db.accounts row.heroku_account_id with
        | none => ⟨UpdateEnvOutcome.serverError, db, none⟩
        | some _acct =>
          match validateEnvVars (row.bot_env.getD []) envVars with
          | Except.error k => ⟨UpdateEnvOutcome.missingVar k, db, none⟩
          | Except.ok validated =>
            if !extOk then ⟨UpdateEnvOutcome.herokuError, db, some row.heroku_app_name⟩
            else
              let deps1 := updateDeployments db.deployments depId
                (fun d => { d with env_variables := some validated })
              let db1 := { db with deployments := deps1 }
              let db2 := { db1 with users := setCoins db1.users userId (user.coins - cost) }
              let db3 := { db2 with txs := db2.txs ++ [updateEnvTx userId cost now] }
              ⟨UpdateEnvOutcome.success (user.coins - cost), db3, some row.heroku_app_name⟩

/-- The `router.delete /delete/:id` handler of src/unnamed/part_003: after the
ownership check, best-effort external teardown (tolerated on failure, so not a
state parameter), delete the deployment row, decrement the account's usage via
`updateHerokuUsage`. -/
def deleteRoute (db : Db) (depId userId : Nat) : Db :=
  match db.deployments.find? (fun d => d.id == depId && d.user_id == userId) with
  | none => db
  | some dep =>
    let db1 := { db with deployments := db.deployments.filter (fun d => !(d.id == depId)) }
    { db1 with accounts := updateHerokuUsage db1.accounts dep.heroku_account_id false }

/-- One iteration of the emergency stop loop of src/unnamed/part_004: fetch the
account of an active deployment; when it exists with a truthy api key, delete
the Heroku app (external, tolerated), set the deployment's status to `stopped`,
and write `used_count := used_count - 1` — the `supabase.raw (used_count - 1)`
update, with no non-negativity clamp, unlike `updateHerokuUsage`. -/
def stopOne (db : Db) (dep : Deployment) : Db :=
  match findAccount db.accounts dep.heroku_account_id with
  | none => db
  | some acct =>
    if acct.api_key = "" then db
    else
      let deps1 := updateDeployments db.deployments dep.id
        (fun d => { d with status := DeployStatus.stopped,
                           logs := "Arrete lors de la maintenance d urgence" })
      let db1 := { db with deployments := deps1 }
      let accs1 := db1.accounts.map fun a =>
        if a.id == dep.heroku_account_id then
          { a with used_count := some (a.used_count.getD 0 - 1) } else a
      { db1 with accounts := accs1 }

/-- The `router.post /maintenance/stop-all-bots` handler of
src/unnamed/part_004: fetch the deployments with status `active` once, then run
the stop loop over that snapshot. -/
def stopAllBots (db : Db) : Db :=
  (db.deployments.filter (fun d => decide (d.status = DeployStatus.active))).foldl stopOne db

/-- The account pool of spec scenario section 8: one saturated account and one
with spare capacity. -/
def poolScenarioMixed : List HerokuAccount :=
  [ { id := 1, api_key := "k1", is_active := true, used_count := some 5,
      max_deployments := some 5 },
    { id := 2, api_key := "k2", is_active := true, used_count := some 2,
      max_deployments := some 5 } ]

/-- The fully saturated pool of spec scenario section 8. -/
def poolScenarioSaturated : List HerokuAccount :=
  [ { id := 1, api_key := "k1", is_active := true, used_count := some 5,
      max_deployments := some 5 },
    { id := 2, api_key := "k2", is_active := true, used_count := some 5,
      max_deployments := some 5 } ]

/-- An active account whose stored `max_deployments` is 0: the JS-falsy
default makes the scan treat it as capacity 5, although its raw capacity is
none (reachable: the admin account-update route skips range validation for a
zero value yet still writes it). -/
def acctMaxZero : HerokuAccount :=
  { id := 1, api_key := "k1", is_active := true, used_count := some 3,
    max_deployments := some 0 }

/-- An active account with genuine raw spare capacity. -/
def acctSpare : HerokuAccount :=
  { id := 2, api_key := "k2", is_active := true, used_count := some 4,
    max_deployments := some 10 }

/-- A pool where the raw inequality and the code's defaulted test disagree. -/
def poolRawAvailable : List HerokuAccount := [acctMaxZero, acctSpare]

/-- An active zero-max account with low usage. -/
def acctMaxZeroLow : HerokuAccount :=
  { id := 1, api_key := "k1", is_active := true, used_count := some 2,
    max_deployments := some 0 }

/-- An active account exactly at its raw capacity. -/
def acctAtCapacity : HerokuAccount :=
  { id := 2, api_key := "k2", is_active := true, used_count := some 9,
    max_deployments := some 9 }

/-- A pool whose every active account is saturated in the raw reading
(used_count >= max_deployments on the stored columns). -/
def poolRawSaturated : List HerokuAccount := [acctMaxZeroLow, acctAtCapacity]

/-- A concrete approved bot with no environment schema. -/
def botA : Bot :=
  { id := 1, name := "alpha", cost := some 10, is_approved := true,
    github_repo := "org/alpha", env_schema := none }

/-- A concrete verified user with 100 coins and referral code AAAA. -/
def userAlice : User :=
  { id := 1, email := "alice@x", coins := 100, is_verified := true,
    referral_code := "AAAA", referred_by := none, verification_code := none }

/-- A concrete verified user with 30 coins. -/
def userBob : User :=
  { id := 2, email := "bob@x", coins := 30, is_verified := true,
    referral_code := "BBBB", referred_by := none, verification_code := none }

/-- A concrete unverified user. -/
def userCarol : User :=
  { id := 3, email := "carol@x", coins := 5, is_verified := false,
    referral_code := "CCCC", referred_by := none, verification_code := some "123456" }

/-- A concrete active account with no usage. -/
def acct1 : HerokuAccount :=
  { id := 1, api_key := "k", is_active := true, used_count := some 0,
    max_deployments := some 5 }

/-- A concrete base state used by the witnesses. -/
def baseDb : Db :=
  { users := [userAlice, userBob, userCarol], bots := [botA], accounts := [acct1],
    deployments := [], txs := [], referrals := [] }

/-- The base state with an empty account pool. -/
def emptyPoolDb : Db := { baseDb with accounts := [] }

/-- External outcomes where the createApp call throws. -/
def extFailCreate : ProvisionOutcomes :=
  { createApp := some "boom", deployFromGithub := none, setConfigVars := none }

/-- External outcomes where every call succeeds. -/
def extAllOk : ProvisionOutcomes :=
  { createApp := none, deployFromGithub := none, setConfigVars := none }

/-- The state reached by: deploy 101, its provisioning fails (compensated),
deploy 102, its provisioning succeeds (active), the user deletes the failed
deployment 101, then the admin runs the emergency stop.  Every step is an
operation of the repository. -/
def c9AfterStop : Db :=
  let r1 := deployRoute baseDb 1 1 10 101 0
  let d2 := deployToHeroku r1.2 101 "app-a" botA 1 extFailCreate
  let r3 := deployRoute d2 1 1 10 102 1
  let d4 := deployToHeroku r3.2 102 "app-b" botA 1 extAllOk
  let d5 := deleteRoute d4 101 1
  stopAllBots d5

/-- A concrete approved bot with one required environment variable. -/
def botEnvB : Bot :=
  { id := 2, name := "beta", cost := some 10, is_approved := true,
    github_repo := "org/beta",
    env_schema := some [("TOKEN", { value := none, required := some true })] }

/-- A concrete active deployment of `botEnvB` owned by user 2, whose stored
Heroku application name is kermhost-abc. -/
def depUpdateEnv : Deployment :=
  { id := 5, user_id := 2, bot_id := 2, status := DeployStatus.active, cost := 10,
    heroku_account_id := 1, heroku_app_name := some "kermhost-abc",
    env_variables := some [], logs := "" }

/-- The concrete state for the update-env evaluation. -/
def updateEnvDb : Db :=
  { users := [userAlice, userBob], bots := [botA, botEnvB], accounts := [acct1],
    deployments := [depUpdateEnv], txs := [], referrals := [] }

/-- The concrete state for the signup evaluation: only the referrer exists. -/
def signupDb : Db :=
  { users := [userAlice], bots := [], accounts := [], deployments := [], txs := [],
    referrals := [] }

/-- The base state with one prior daily claim at time 1000. -/
def dailyDb : Db := { baseDb with txs := [dailyTx 1 10 1000] }

/-- Rewrite the stored cost of a bot (used to state that the deploy route's
debit does not depend on the stored cost). -/
def setBotCost (bots : List Bot) (botId : Nat) (c2 : Option Int) : List Bot :=
  bots.map fun b => if b.id == botId then { b with cost := c2 } else b

/-- Generic helper: searching a mapped list for a predicate that the mapping
preserves finds the image of the original hit. -/
theorem find_map_pred_inv {α : Type} (g : α → α) (p : α → Bool)
    (hg : ∀ a, p (g a) = p a) :
    ∀ l : List α, (l.map g).find? p = (l.find? p).map g := by
  intro l
  induction l with
  | nil => rfl
  | cons x xs ih =>
    by_cases hx : p x = true
    · have hgx : p (g x) = true := by rw [hg]; exact hx
      simp only [List.map_cons]
      rw [List.find?_cons_of_pos _ hgx, List.find?_cons_of_pos _ hx]
      rfl
    · have hgx : ¬ p (g x) = true := by rw [hg]; exact hx
      simp only [List.map_cons]
      rw [List.find?_cons_of_neg _ hgx, List.find?_cons_of_neg _ hx, ih]

/-- Counterexample to C2 as stated: in `poolRawAvailable` the account with
raw spare capacity is acctSpare (4 < 10), yet the allocator returns
acctMaxZero, whose raw `used_count` (3) is not below its raw
`max_deployments` (0) — the scan compares against `max_deployments || 5`, and
JavaScript falsiness turns the stored 0 into 5. -/
theorem allocator_raw_inequality_counterexample :
    getAvailableHerokuAccount poolRawAvailable = some acctMaxZero ∧
    ¬ (acctMaxZero.used_count.getD 0 < acctMaxZero.max_deployments.getD 0) ∧
    (acctSpare.is_active = true ∧
      acctSpare.used_count.getD 0 < acctSpare.max_deployments.getD 0) := by
  decide

/-- C2 (amended): whenever some active account passes the code's availability
test `(used_count || 0) < (max_deployments || 5)` — JavaScript falsiness, so a
null or zero stored `max_deployments` counts as 5 — `getAvailableHerokuAccount`
returns an account satisfying that test, namely the first such account when
the active accounts are ordered by `used_count` ascending (the saturated
fallback is not taken).  The raw inequality `used_count < max_deployments` of
the original claim can fail on the returned account when it stores
`max_deployments = 0`. -/
theorem allocator_returns_first_available (pool : List HerokuAccount)
    (h : ∃ a ∈ pool, a.is_active = true ∧ usedOf a < maxOf a) :
    ∃ a, getAvailableHerokuAccount pool = some a ∧
      a ∈ pool ∧ a.is_active = true ∧ usedOf a < maxOf a ∧
      (activeAccountsSorted pool).find? hasCapacity = some a := by
  obtain ⟨b, hbmem, hbact, hbcap⟩ := h
  have hbf : b ∈ pool.filter (fun a => a.is_active) := by
    rw [List.mem_filter]; exact ⟨hbmem, hbact⟩
  have hbs : b ∈ activeAccountsSorted pool :=
    (List.perm_insertionSort usedLe _).mem_iff.mpr hbf
  have hne : (activeAccountsSorted pool).isEmpty = false := by
    cases hs : activeAccountsSorted pool with
    | nil => rw [hs] at hbs; cases hbs
    | cons c cs => rfl
  have hcb : hasCapacity b = true := decide_eq_true hbcap
  obtain ⟨a, ha⟩ : ∃ a, (activeAccountsSorted pool).find? hasCapacity = some a := by
    cases hf : (activeAccountsSorted pool).find? hasCapacity with
    | some a => exact ⟨a, rfl⟩
    | none => exact absurd hcb (List.find?_eq_none.mp hf b hbs)
  have hpa : hasCapacity a = true := List.find?_some ha
  have hamem' : a ∈ activeAccountsSorted pool := List.mem_of_find?_eq_some ha
  have hamemf : a ∈ pool.filter (fun x => x.is_active) :=
    (List.perm_insertionSort usedLe _).mem_iff.mp hamem'
  refine ⟨a, ?_, (List.mem_filter.mp hamemf).1, (List.mem_filter.mp hamemf).2,
    of_decide_eq_true hpa, ha⟩
  unfold getAvailableHerokuAccount
  simp only [hne, ha, Bool.false_eq_true, if_false]

/-- Witness for C2, on the mixed pool of spec scenario section 8. -/
theorem allocator_returns_first_available_witness :
    (∃ a ∈ poolScenarioMixed, a.is_active = true ∧ usedOf a < maxOf a) ∧
    ∃ a, getAvailableHerokuAccount poolScenarioMixed = some a ∧
      a ∈ poolScenarioMixed ∧ a.is_active = true ∧ usedOf a < maxOf a ∧
      (activeAccountsSorted poolScenarioMixed).find? hasCapacity = some a :=
  ⟨by decide, allocator_returns_first_available poolScenarioMixed (by decide)⟩

/-- Counterexample to C8 as stated: every active account of
`poolRawSaturated` is saturated in the raw reading (2 >= 0 and 9 >= 9), yet
the allocator returns acctMaxZeroLow through the scan (2 < 0 || 5 = 5), whose
spare capacity (-2) is strictly below acctAtCapacity's (0) — the fallback
maximizer is never reached. -/
theorem allocator_fallback_not_taken_counterexample :
    (∀ a ∈ poolRawSaturated, a.is_active = true →
      a.max_deployments.getD 0 ≤ a.used_count.getD 0) ∧
    getAvailableHerokuAccount poolRawSaturated = some acctMaxZeroLow ∧
    capacityOf acctMaxZeroLow < capacityOf acctAtCapacity ∧
    (acctAtCapacity ∈ poolRawSaturated ∧ acctAtCapacity.is_active = true) := by
  decide

/-- C8 (amended): when every active account is saturated under the code's
availability test (`(used_count || 0) >= (max_deployments || 5)`, a null or
zero stored maximum counting as 5), the allocator still returns an account,
one maximizing the spare capacity `(max_deployments || 0) - (used_count || 0)`
among active accounts; it signals the no-capacity error (`none`) exactly when
the pool has no active account.  Under the raw reading of saturation an
account storing `max_deployments = 0` can instead be returned by the scan,
bypassing the fallback. -/
theorem allocator_saturated_fallback (pool : List HerokuAccount) :
    ( (∀ a ∈ pool, a.is_active = true → maxOf a ≤ usedOf a) →
      (∃ a ∈ pool, a.is_active = true) →
      ∃ a, getAvailableHerokuAccount pool = some a ∧ a ∈ pool ∧ a.is_active = true ∧
        ∀ b ∈ pool, b.is_active = true → capacityOf b ≤ capacityOf a )
    ∧ (getAvailableHerokuAccount pool = none ↔ ∀ a ∈ pool, a.is_active = false) := by
  constructor
  · intro hsat hex
    obtain ⟨b, hbmem, hbact⟩ := hex
    have hbf : b ∈ pool.filter (fun a => a.is_active) := by
      rw [List.mem_filter]; exact ⟨hbmem, hbact⟩
    have hbs : b ∈ activeAccountsSorted pool :=
      (List.perm_insertionSort usedLe _).mem_iff.mpr hbf
    have hne : (activeAccountsSorted pool).isEmpty = false := by
      cases hs : activeAccountsSorted pool with
      | nil => rw [hs] at hbs; cases hbs
      | cons c cs => rfl
    have hnone : (activeAccountsSorted pool).find? hasCapacity = none := by
      apply List.find?_eq_none.mpr
      intro x hx
      have hxf : x ∈ pool.filter (fun a => a.is_active) :=
        (List.perm_insertionSort usedLe _).mem_iff.mp hx
      have hxcap := hsat x (List.mem_filter.mp hxf).1 (List.mem_filter.mp hxf).2
      intro hxc
      exact absurd (of_decide_eq_true hxc) (not_lt.mpr hxcap)
    have hbc : b ∈ List.insertionSort capGe (activeAccountsSorted pool) :=
      (List.perm_insertionSort capGe _).mem_iff.mpr hbs
    cases hcs : List.insertionSort capGe (activeAccountsSorted pool) with
    | nil => rw [hcs] at hbc; cases hbc
    | cons hd tl =>
      have hsorted : List.Sorted capGe (List.insertionSort capGe (activeAccountsSorted pool)) :=
        List.sorted_insertionSort capGe _
      rw [hcs] at hsorted
      have hdmem : hd ∈ List.insertionSort capGe (activeAccountsSorted pool) := by
        rw [hcs]; exact List.mem_cons_self hd tl
      have hdf : hd ∈ pool.filter (fun x => x.is_active) :=
        (List.perm_insertionSort usedLe _).mem_iff.mp
          ((List.perm_insertionSort capGe _).mem_iff.mp hdmem)
      refine ⟨hd, ?_, (List.mem_filter.mp hdf).1, (List.mem_filter.mp hdf).2, ?_⟩
      · unfold getAvailableHerokuAccount
        simp only [hne, hnone, hcs, Bool.false_eq_true, if_false, List.head?]
      · intro c hcmem hcact
        have hcf : c ∈ pool.filter (fun x => x.is_active) := by
          rw [List.mem_filter]; exact ⟨hcmem, hcact⟩
        have hcc : c ∈ List.insertionSort capGe (activeAccountsSorted pool) :=
          (List.perm_insertionSort capGe _).mem_iff.mpr
            ((List.perm_insertionSort usedLe _).mem_iff.mpr hcf)
        rw [hcs] at hcc
        rcases List.mem_cons.mp hcc with hc | hc
        · rw [hc]
        · exact List.rel_of_sorted_cons hsorted c hc
  · constructor
    · intro hnone
      intro a hamem
      by_contra hact
      have hact' : a.is_active = true := by
        cases hia : a.is_active with
        | false => exact absurd hia hact
        | true => rfl
      have haf : a ∈ pool.filter (fun x => x.is_active) := by
        rw [List.mem_filter]; exact ⟨hamem, hact'⟩
      have has : a ∈ activeAccountsSorted pool :=
        (List.perm_insertionSort usedLe _).mem_iff.mpr haf
      have hne : (activeAccountsSorted pool).isEmpty = false := by
        cases hs : activeAccountsSorted pool with
        | nil => rw [hs] at has; cases has
        | cons c cs => rfl
      unfold getAvailableHerokuAccount at hnone
      simp only [hne, Bool.false_eq_true, if_false] at hnone
      cases hf : (activeAccountsSorted pool).find? hasCapacity with
      | some x => rw [hf] at hnone; cases hnone
      | none =>
        rw [hf] at hnone
        have hac : a ∈ List.insertionSort capGe (activeAccountsSorted pool) :=
          (List.perm_insertionSort capGe _).mem_iff.mpr has
        cases hcs : List.insertionSort capGe (activeAccountsSorted pool) with
        | nil => rw [hcs] at hac; cases hac
        | cons hd tl => rw [hcs] at hnone; cases hnone
    · intro hall
      have hfilter : pool.filter (fun a => a.is_active) = [] := by
        apply List.filter_eq_nil_iff.mpr
        intro a hamem
        rw [hall a hamem]
        exact Bool.false_ne_true
      unfold getAvailableHerokuAccount activeAccountsSorted
      rw [hfilter]
      rfl

/-- Witness for C8, on the fully saturated pool of spec scenario section 8. -/
theorem allocator_saturated_fallback_witness :
    ∃ a, getAvailableHerokuAccount poolScenarioSaturated = some a ∧
      a ∈ poolScenarioSaturated ∧ a.is_active = true ∧
      ∀ b ∈ poolScenarioSaturated, b.is_active = true → capacityOf b ≤ capacityOf a :=
  (allocator_saturated_fallback poolScenarioSaturated).1 (by decide) (by decide)

/-- Finding a user after an `increment_coins` update: the hit is the image of
the original hit. -/
theorem findUser_incrementCoins (users : List User) (uid vid : Nat) (d : Int) :
    findUser (incrementCoins users uid d) vid =
      (findUser users vid).map
        (fun u => if u.id == uid then { u with coins := u.coins + d } else u) := by
  unfold findUser incrementCoins
  apply find_map_pred_inv
  intro a
  by_cases h : (a.id == uid) = true <;> simp [h]

/-- The balance of the credited user after `increment_coins`. -/
theorem userCoins_incrementCoins_self (users : List User) (uid : Nat) (d : Int) (u : User)
    (hu : findUser users uid = some u) :
    userCoins (incrementCoins users uid d) uid = some (u.coins + d) := by
  have hu' := hu
  unfold findUser at hu'
  have hid : (u.id == uid) = true := by simpa using List.find?_some hu'
  have hid2 : u.id = uid := by rwa [beq_iff_eq] at hid
  unfold userCoins
  rw [findUser_incrementCoins, hu]
  simp [hid2]

/-- The balance of any other user is unchanged by `increment_coins`. -/
theorem userCoins_incrementCoins_other (users : List User) (uid vid : Nat) (d : Int)
    (hne : vid ≠ uid) :
    userCoins (incrementCoins users uid d) vid = userCoins users vid := by
  unfold userCoins
  rw [findUser_incrementCoins]
  cases hu : findUser users vid with
  | none => rfl
  | some u =>
    have hu' := hu
    unfold findUser at hu'
    have hid : (u.id == vid) = true := by simpa using List.find?_some hu'
    have hid2 : u.id = vid := by rwa [beq_iff_eq] at hid
    have hne2 : ¬ u.id = uid := by
      rw [hid2]
      exact hne
    simp [hne2]

/-- Finding a user after an absolute coins write. -/
theorem findUser_setCoins (users : List User) (uid vid : Nat) (v : Int) :
    findUser (setCoins users uid v) vid =
      (findUser users vid).map (fun u => if u.id == uid then { u with coins := v } else u) := by
  unfold findUser setCoins
  apply find_map_pred_inv
  intro a
  by_cases h : (a.id == uid) = true <;> simp [h]

/-- The written row after an absolute coins write. -/
theorem findUser_setCoins_self (users : List User) (uid : Nat) (v : Int) (u : User)
    (hu : findUser users uid = some u) :
    findUser (setCoins users uid v) uid = some { u with coins := v } := by
  have hu' := hu
  unfold findUser at hu'
  have hid : (u.id == uid) = true := by simpa using List.find?_some hu'
  have hid2 : u.id = uid := by rwa [beq_iff_eq] at hid
  rw [findUser_setCoins, hu]
  simp [hid2]

/-- The balance of the written user after an absolute coins write. -/
theorem userCoins_setCoins_self (users : List User) (uid : Nat) (v : Int) (u : User)
    (hu : findUser users uid = some u) :
    userCoins (setCoins users uid v) uid = some v := by
  unfold userCoins
  rw [findUser_setCoins_self users uid v u hu]
  rfl

/-- Finding the updated account after `updateHerokuUsage`. -/
theorem findAccount_updateHerokuUsage_self (accs : List HerokuAccount) (aid : Nat)
    (inc : Bool) (acct : HerokuAccount) (ha : findAccount accs aid = some acct) :
    findAccount (updateHerokuUsage accs aid inc) aid =
      some { acct with used_count := some (if inc then acct.used_count.getD 0 + 1
        else max 0 (acct.used_count.getD 0 - 1)) } := by
  have ha' := ha
  unfold findAccount at ha'
  have hid : (acct.id == aid) = true := by simpa using List.find?_some ha'
  have hmap : updateHerokuUsage accs aid inc =
      accs.map (fun a => if a.id == aid then
        { a with used_count := some (if inc then acct.used_count.getD 0 + 1
          else max 0 (acct.used_count.getD 0 - 1)) } else a) := by
    simp [updateHerokuUsage, ha]
  have hid2 : acct.id = aid := by rwa [beq_iff_eq] at hid
  rw [hmap]
  unfold findAccount
  rw [find_map_pred_inv]
  · rw [ha']
    simp [hid2]
  · intro a
    by_cases h : (a.id == aid) = true <;> simp [h]

/-- Finding the updated deployment after an `update ... eq id`. -/
theorem findDeployment_updateDeployments_self (deps : List Deployment) (did : Nat)
    (f : Deployment → Deployment) (dep : Deployment)
    (hf : ∀ d, (f d).id = d.id)
    (hd : findDeployment deps did = some dep) :
    findDeployment (updateDeployments deps did f) did = some (f dep) := by
  have hd' := hd
  unfold findDeployment at hd'
  have hid : (dep.id == did) = true := by simpa using List.find?_some hd'
  have hid2 : dep.id = did := by rwa [beq_iff_eq] at hid
  unfold findDeployment updateDeployments
  rw [find_map_pred_inv]
  · rw [hd']
    simp [hid2]
  · intro a
    by_cases h : (a.id == did) = true <;> simp [h, hf]

/-- Finding a freshly inserted deployment row. -/
theorem findDeployment_append_fresh (deps : List Deployment) (dep : Deployment) (did : Nat)
    (hfresh : findDeployment deps did = none) (hid : (dep.id == did) = true) :
    findDeployment (deps ++ [dep]) did = some dep := by
  unfold findDeployment at hfresh ⊢
  rw [List.find?_append, hfresh]
  simp [hid]

/-- A row map that changes neither ids nor balances leaves every balance
lookup unchanged. -/
theorem userCoins_map_preserve (users : List User) (g : User → User) (uid : Nat)
    (hgid : ∀ u, (g u).id = u.id) (hgc : ∀ u, (g u).coins = u.coins) :
    userCoins (users.map g) uid = userCoins users uid := by
  unfold userCoins findUser
  rw [find_map_pred_inv]
  · cases h : users.find? (fun u => u.id == uid) with
    | none => rfl
    | some u => simp [hgc]
  · intro a
    simp [hgid]

/-- A user row unaffected by an `increment_coins` on another id is still found
unchanged. -/
theorem findUser_incrementCoins_other (users : List User) (uid vid : Nat) (d : Int)
    (u : User) (hu : findUser users vid = some u) (hne : ¬ u.id = uid) :
    findUser (incrementCoins users uid d) vid = some u := by
  rw [findUser_incrementCoins, hu]
  simp [hne]

/-- C4: a successful coin transfer of amount `a` debits the sender by `a`,
credits the receiver by `a`, and writes a `transfer` Ledger Entry; the
operation is rejected, leaving the state unchanged, when the sender's balance
is below `a`, when the receiver is not a verified user, or when sender and
receiver are the same (same email). -/
theorem transfer_coins_spec (db : Db) (senderId : Nat) (remail : String) (a : Int)
    (now : Nat) (sender : User)
    (hs : findUser db.users senderId = some sender) :
    ( ∀ receiver : User,
        remail ≠ "" → 0 < a → a ≤ sender.coins → remail ≠ sender.email →
        db.users.find? (fun u => u.email == remail) = some receiver →
        receiver.is_verified = true →
        findUser db.users receiver.id = some receiver →
        sender.id ≠ receiver.id →
        (sendCoins db senderId remail a now).1 = SendOutcome.success ∧
        userCoins (sendCoins db senderId remail a now).2.users senderId =
          some (sender.coins - a) ∧
        userCoins (sendCoins db senderId remail a now).2.users receiver.id =
          some (receiver.coins + a) ∧
        (sendCoins db senderId remail a now).2.txs =
          db.txs ++ [transferTx senderId receiver.id a now] )
    ∧ ( remail ≠ "" → 0 < a → sender.coins < a →
        sendCoins db senderId remail a now = (SendOutcome.insufficient, db) )
    ∧ ( remail ≠ "" → 0 < a → a ≤ sender.coins → remail = sender.email →
        sendCoins db senderId remail a now = (SendOutcome.selfSend, db) )
    ∧ ( ∀ receiver : User,
        remail ≠ "" → 0 < a → a ≤ sender.coins → remail ≠ sender.email →
        db.users.find? (fun u => u.email == remail) = some receiver →
        receiver.is_verified = false →
        sendCoins db senderId remail a now = (SendOutcome.receiverNotVerified, db) ) := by
  have hs' := hs
  unfold findUser at hs'
  have hsidb : (sender.id == senderId) = true := by simpa using List.find?_some hs'
  have hsid : sender.id = senderId := by rwa [beq_iff_eq] at hsidb
  refine ⟨?_, ?_, ?_, ?_⟩
  · intro receiver hre ha0 hbal hmail hr hv hrid hneid
    have hb0 : (remail == "") = false := by rw [beq_eq_false_iff_ne]; exact hre
    have hb1 : (a == 0) = false := by rw [beq_eq_false_iff_ne]; exact ne_of_gt ha0
    have hb2 : ¬ a ≤ 0 := not_le.mpr ha0
    have hb3 : ¬ sender.coins < a := not_lt.mpr hbal
    have hb4 : (remail == sender.email) = false := by rw [beq_eq_false_iff_ne]; exact hmail
    have h1 : (sendCoins db senderId remail a now).1 = SendOutcome.success := by
      simp [sendCoins, hs, hb0, hb1, hb2, hb3, hb4, hr, hv]
    have htx : (sendCoins db senderId remail a now).2.txs =
        db.txs ++ [transferTx senderId receiver.id a now] := by
      simp [sendCoins, hs, hb0, hb1, hb2, hb3, hb4, hr, hv]
    have huse : (sendCoins db senderId remail a now).2.users =
        incrementCoins (incrementCoins db.users senderId (-a)) receiver.id a := by
      simp [sendCoins, hs, hb0, hb1, hb2, hb3, hb4, hr, hv]
    refine ⟨h1, ?_, ?_, htx⟩
    · rw [huse]
      have hsender1 : userCoins (incrementCoins (incrementCoins db.users senderId (-a))
          receiver.id a) senderId =
          userCoins (incrementCoins db.users senderId (-a)) senderId := by
        apply userCoins_incrementCoins_other
        rw [← hsid]
        exact hneid
      rw [hsender1, userCoins_incrementCoins_self db.users senderId (-a) sender hs]
      rw [Int.sub_eq_add_neg]
    · rw [huse]
      have hrcv1 : findUser (incrementCoins db.users senderId (-a)) receiver.id =
          some receiver := by
        have hrne : ¬ receiver.id = senderId := by
          have hrb : (receiver.id == receiver.id) = true := by simp
          intro hc
          rw [← hsid] at hc
          -- receiver row found by id has the receiver's own id
          have hrb2 : (receiver.id == receiver.id) = true := by simp
          exact hneid (by rw [hc])
        exact findUser_incrementCoins_other db.users senderId receiver.id (-a)
          receiver hrid hrne
      unfold userCoins
      rw [findUser_incrementCoins, hrcv1]
      simp
  · intro hre ha0 hlt
    have hb0 : (remail == "") = false := by rw [beq_eq_false_iff_ne]; exact hre
    have hb1 : (a == 0) = false := by rw [beq_eq_false_iff_ne]; exact ne_of_gt ha0
    have hb2 : ¬ a ≤ 0 := not_le.mpr ha0
    simp [sendCoins, hs, hb0, hb1, hb2, hlt]
  · intro hre ha0 hbal hmail
    have hb0 : (remail == "") = false := by rw [beq_eq_false_iff_ne]; exact hre
    have hb1 : (a == 0) = false := by rw [beq_eq_false_iff_ne]; exact ne_of_gt ha0
    have hb2 : ¬ a ≤ 0 := not_le.mpr ha0
    have hb3 : ¬ sender.coins < a := not_lt.mpr hbal
    have hb4 : (remail == sender.email) = true := by rw [beq_iff_eq]; exact hmail
    simp [sendCoins, hs, hb0, hb1, hb2, hb3, hb4]
  · intro receiver hre ha0 hbal hmail hr hv
    have hb0 : (remail == "") = false := by rw [beq_eq_false_iff_ne]; exact hre
    have hb1 : (a == 0) = false := by rw [beq_eq_false_iff_ne]; exact ne_of_gt ha0
    have hb2 : ¬ a ≤ 0 := not_le.mpr ha0
    have hb3 : ¬ sender.coins < a := not_lt.mpr hbal
    have hb4 : (remail == sender.email) = false := by rw [beq_eq_false_iff_ne]; exact hmail
    simp [sendCoins, hs, hb0, hb1, hb2, hb3, hb4, hr, hv]

/-- Witness for C4: Alice (100 coins) sends 40 to verified Bob; an oversized
transfer, a self-send and a transfer to unverified Carol are rejected
unchanged. -/
theorem transfer_coins_spec_witness :
    ((sendCoins baseDb 1 "bob@x" 40 7).1 = SendOutcome.success ∧
      userCoins (sendCoins baseDb 1 "bob@x" 40 7).2.users 1 = some (userAlice.coins - 40) ∧
      userCoins (sendCoins baseDb 1 "bob@x" 40 7).2.users 2 = some (userBob.coins + 40) ∧
      (sendCoins baseDb 1 "bob@x" 40 7).2.txs = baseDb.txs ++ [transferTx 1 2 40 7]) ∧
    sendCoins baseDb 1 "bob@x" 1000 7 = (SendOutcome.insufficient, baseDb) ∧
    sendCoins baseDb 1 "alice@x" 40 7 = (SendOutcome.selfSend, baseDb) ∧
    sendCoins baseDb 1 "carol@x" 40 7 = (SendOutcome.receiverNotVerified, baseDb) :=
  ⟨(transfer_coins_spec baseDb 1 "bob@x" 40 7 userAlice (by decide)).1 userBob
      (by decide) (by decide) (by decide) (by decide) (by decide) (by decide)
      (by decide) (by decide),
   (transfer_coins_spec baseDb 1 "bob@x" 1000 7 userAlice (by decide)).2.1
      (by decide) (by decide) (by decide),
   (transfer_coins_spec baseDb 1 "alice@x" 40 7 userAlice (by decide)).2.2.1
      (by decide) (by decide) (by decide) (by decide),
   (transfer_coins_spec baseDb 1 "carol@x" 40 7 userAlice (by decide)).2.2.2 userCarol
      (by decide) (by decide) (by decide) (by decide) (by decide) (by decide)⟩

/-- C5: a claim-daily call made strictly less than 24 hours after the user's
most recent `daily` ledger entry is rejected and changes nothing; a call made
24 hours or later (or with no prior `daily` entry) succeeds, appends the
`daily` ledger entry with the user as receiver, and credits the reward to the
user's balance. -/
theorem claim_daily_cooldown (db : Db) (uid : Nat) (now : Nat) (reward : Int) (u : User)
    (hu : findUser db.users uid = some u) :
    ( ∀ t, lastDailyTime db.txs uid = some t → now - t < msPerDay →
        claimDaily db uid now reward = (false, db) )
    ∧ ( ∀ t, lastDailyTime db.txs uid = some t → msPerDay ≤ now - t →
        (claimDaily db uid now reward).1 = true ∧
        (claimDaily db uid now reward).2.txs = db.txs ++ [dailyTx uid reward now] ∧
        userCoins (claimDaily db uid now reward).2.users uid = some (u.coins + reward) )
    ∧ ( lastDailyTime db.txs uid = none →
        (claimDaily db uid now reward).1 = true ∧
        (claimDaily db uid now reward).2.txs = db.txs ++ [dailyTx uid reward now] ∧
        userCoins (claimDaily db uid now reward).2.users uid = some (u.coins + reward) ) := by
  refine ⟨?_, ?_, ?_⟩
  · intro t ht hlt
    simp [claimDaily, ht, decide_eq_false (not_le.mpr hlt)]
  · intro t ht hle
    have husers : (claimDaily db uid now reward).2.users =
        incrementCoins db.users uid reward := by
      simp [claimDaily, ht, decide_eq_true hle]
    refine ⟨?_, ?_, ?_⟩
    · simp [claimDaily, ht, decide_eq_true hle]
    · simp [claimDaily, ht, decide_eq_true hle]
    · rw [husers]
      exact userCoins_incrementCoins_self db.users uid reward u hu
  · intro ht
    have husers : (claimDaily db uid now reward).2.users =
        incrementCoins db.users uid reward := by
      simp [claimDaily, ht]
    refine ⟨?_, ?_, ?_⟩
    · simp [claimDaily, ht]
    · simp [claimDaily, ht]
    · rw [husers]
      exact userCoins_incrementCoins_self db.users uid reward u hu

/-- Witness for C5: user 1 claimed at time 1000; a claim at 5000 ms is
rejected unchanged, a claim a full day later succeeds and credits the
reward. -/
theorem claim_daily_cooldown_witness :
    (claimDaily dailyDb 1 5000 10 = (false, dailyDb)) ∧
    ((claimDaily dailyDb 1 86401000 10).1 = true ∧
      (claimDaily dailyDb 1 86401000 10).2.txs = dailyDb.txs ++ [dailyTx 1 10 86401000] ∧
      userCoins (claimDaily dailyDb 1 86401000 10).2.users 1 = some (userAlice.coins + 10)) :=
  ⟨(claim_daily_cooldown dailyDb 1 5000 10 userAlice (by decide)).1 1000
      (by decide) (by decide),
   (claim_daily_cooldown dailyDb 1 86401000 10 userAlice (by decide)).2.1 1000
      (by decide) (by decide)⟩

/-- The deploy route on the happy path: explicit form of the outcome and of the
four writes (deployment insert, absolute balance write, usage increment, debit
Ledger Entry). -/
theorem deployRoute_success_effects (db : Db) (userId botId : Nat) (c : Int)
    (newId now : Nat) (user : User) (bot : Bot) (acct : HerokuAccount)
    (hu : findUser db.users userId = some user)
    (hnl : ¬ user.coins < c)
    (hb : db.bots.find? (fun b => b.id == botId && b.is_approved) = some bot)
    (ha : getAvailableHerokuAccount db.accounts = some acct)
    (hcap : usedOf acct < maxOf acct) :
    deployRoute db userId botId c newId now =
      (DeployOutcome.success newId,
        { db with
          deployments := db.deployments ++ [newDeploymentRow newId userId botId c acct.id bot],
          users := setCoins db.users userId (user.coins - c),
          accounts := updateHerokuUsage db.accounts acct.id true,
          txs := db.txs ++ [deploymentDebitTx userId c bot now] }) := by
  have hnc : ¬ maxOf acct ≤ usedOf acct := not_le.mpr hcap
  simp [deployRoute, hu, hnl, hb, ha, hnc]

/-- Counterexample to C3 as stated: user 1 holds 100 ≥ 10 coins and the bot is
approved, yet with no account configured the request does not succeed (it
reaches the catch-all server error) and the state is unchanged. -/
theorem deploy_no_account_counterexample :
    (deployRoute emptyPoolDb 1 1 10 101 0).1 = DeployOutcome.serverError ∧
    (deployRoute emptyPoolDb 1 1 10 101 0).2 = emptyPoolDb ∧
    userCoins emptyPoolDb.users 1 = some 100 ∧
    emptyPoolDb.bots.find? (fun b => b.id == 1 && b.is_approved) = some botA := by
  decide

/-- C3 (amended): when the user's balance is at least the request cost, the bot
is approved, and the allocator returns an unsaturated account, the request
succeeds, the balance immediately becomes b - c, a `deployment` Ledger Entry
with sender = user and amount = request cost is written, the allocated
account's used_count is incremented and a pending Deployment row is created;
when the user's coins are below the cost the request is rejected with the
insufficient-balance error and no deployment row is created. -/
theorem deploy_route_spec (db : Db) (userId botId : Nat) (c : Int) (newId now : Nat)
    (user : User)
    (hu : findUser db.users userId = some user) :
    ( ∀ (bot : Bot) (acct : HerokuAccount),
        ¬ user.coins < c →
        db.bots.find? (fun b => b.id == botId && b.is_approved) = some bot →
        getAvailableHerokuAccount db.accounts = some acct →
        usedOf acct < maxOf acct →
        findAccount db.accounts acct.id = some acct →
        findDeployment db.deployments newId = none →
        (deployRoute db userId botId c newId now).1 = DeployOutcome.success newId ∧
        userCoins (deployRoute db userId botId c newId now).2.users userId =
          some (user.coins - c) ∧
        (deployRoute db userId botId c newId now).2.txs =
          db.txs ++ [deploymentDebitTx userId c bot now] ∧
        (findAccount (deployRoute db userId botId c newId now).2.accounts acct.id).map
          usedOf = some (usedOf acct + 1) ∧
        (findDeployment (deployRoute db userId botId c newId now).2.deployments newId).map
          (fun d => d.status) = some DeployStatus.pending )
    ∧ ( user.coins < c →
        deployRoute db userId botId c newId now = (DeployOutcome.insufficientCoins, db) ) := by
  constructor
  · intro bot acct hnl hb ha hcap hfa hfresh
    rw [deployRoute_success_effects db userId botId c newId now user bot acct hu hnl hb ha hcap]
    refine ⟨rfl, ?_, rfl, ?_, ?_⟩
    · exact userCoins_setCoins_self db.users userId (user.coins - c) user hu
    · rw [findAccount_updateHerokuUsage_self db.accounts acct.id true acct hfa]
      simp [usedOf]
    · rw [findDeployment_append_fresh db.deployments _ newId hfresh (by simp [newDeploymentRow])]
      rfl
  · intro hlt
    simp [deployRoute, hu, hlt]

/-- Witness for C3 (amended): Alice deploys the approved bot for 10 of her 100
coins on the fresh account; Carol with 5 coins is rejected unchanged. -/
theorem deploy_route_spec_witness :
    ((deployRoute baseDb 1 1 10 101 0).1 = DeployOutcome.success 101 ∧
      userCoins (deployRoute baseDb 1 1 10 101 0).2.users 1 = some (userAlice.coins - 10) ∧
      (deployRoute baseDb 1 1 10 101 0).2.txs = baseDb.txs ++ [deploymentDebitTx 1 10 botA 0] ∧
      (findAccount (deployRoute baseDb 1 1 10 101 0).2.accounts 1).map usedOf =
        some (usedOf acct1 + 1) ∧
      (findDeployment (deployRoute baseDb 1 1 10 101 0).2.deployments 101).map
        (fun d => d.status) = some DeployStatus.pending) ∧
    deployRoute baseDb 3 1 10 101 0 = (DeployOutcome.insufficientCoins, baseDb) :=
  ⟨(deploy_route_spec baseDb 1 1 10 101 0 userAlice (by decide)).1 botA acct1
      (by decide) (by decide) (by decide) (by decide) (by decide) (by decide),
   (deploy_route_spec baseDb 3 1 10 101 0 userCarol (by decide)).2 (by decide)⟩

/-- C10: the amount checked, debited and recorded by the deploy route is the
request-body cost `c`: the balance becomes `b - c`, the Ledger Entry's amount
and the Deployment row's cost are `c`, and replacing the bot's stored cost by
any other value changes neither the outcome nor the balances nor the ledger. -/
theorem deploy_uses_request_cost (db : Db) (userId botId : Nat) (c : Int)
    (newId now : Nat) (user : User) (bot : Bot) (acct : HerokuAccount)
    (hu : findUser db.users userId = some user)
    (hnl : ¬ user.coins < c)
    (hb : db.bots.find? (fun b => b.id == botId && b.is_approved) = some bot)
    (ha : getAvailableHerokuAccount db.accounts = some acct)
    (hcap : usedOf acct < maxOf acct)
    (hfresh : findDeployment db.deployments newId = none) :
    userCoins (deployRoute db userId botId c newId now).2.users userId =
      some (user.coins - c) ∧
    (deployRoute db userId botId c newId now).2.txs =
      db.txs ++ [deploymentDebitTx userId c bot now] ∧
    (deploymentDebitTx userId c bot now).amount = c ∧
    (findDeployment (deployRoute db userId botId c newId now).2.deployments newId).map
      (fun d => d.cost) = some c ∧
    ∀ c2 : Option Int,
      (deployRoute { db with bots := setBotCost db.bots botId c2 } userId botId c
          newId now).1 = (deployRoute db userId botId c newId now).1 ∧
      (deployRoute { db with bots := setBotCost db.bots botId c2 } userId botId c
          newId now).2.users = (deployRoute db userId botId c newId now).2.users ∧
      (deployRoute { db with bots := setBotCost db.bots botId c2 } userId botId c
          newId now).2.txs = (deployRoute db userId botId c newId now).2.txs := by
  have hbprop : ((bot.id == botId) && bot.is_approved) = true := by
    simpa using List.find?_some hb
  have hidbot : (bot.id == botId) = true := by
    rcases Bool.and_eq_true_iff.mp hbprop with ⟨h1, _⟩
    exact h1
  have hidbot2 : bot.id = botId := by rwa [beq_iff_eq] at hidbot
  have hrw := deployRoute_success_effects db userId botId c newId now user bot acct
    hu hnl hb ha hcap
  refine ⟨?_, ?_, rfl, ?_, ?_⟩
  · rw [hrw]
    exact userCoins_setCoins_self db.users userId (user.coins - c) user hu
  · rw [hrw]
  · rw [hrw]
    rw [findDeployment_append_fresh db.deployments _ newId hfresh (by simp [newDeploymentRow])]
    rfl
  · intro c2
    have hbmap : (setBotCost db.bots botId c2).find?
        (fun b => b.id == botId && b.is_approved) = some { bot with cost := c2 } := by
      unfold setBotCost
      rw [find_map_pred_inv]
      · rw [hb]
        simp [hidbot2]
      · intro b
        by_cases hbb : (b.id == botId) = true <;> simp [hbb]
    have hrw2 := deployRoute_success_effects { db with bots := setBotCost db.bots botId c2 }
      userId botId c newId now user { bot with cost := c2 } acct hu hnl hbmap ha hcap
    rw [hrw, hrw2]
    exact ⟨rfl, rfl, rfl⟩

/-- Witness for C10: the debit equals the request cost 10 although the stored
bot cost is replaced by 999. -/
theorem deploy_uses_request_cost_witness :
    (userCoins (deployRoute baseDb 1 1 10 101 0).2.users 1 = some (userAlice.coins - 10) ∧
      (deployRoute baseDb 1 1 10 101 0).2.txs = baseDb.txs ++ [deploymentDebitTx 1 10 botA 0] ∧
      (deploymentDebitTx 1 10 botA 0).amount = 10 ∧
      (findDeployment (deployRoute baseDb 1 1 10 101 0).2.deployments 101).map
        (fun d => d.cost) = some 10) ∧
    ((deployRoute { baseDb with bots := setBotCost baseDb.bots 1 (some 999) } 1 1 10 101 0).1 =
        (deployRoute baseDb 1 1 10 101 0).1 ∧
      (deployRoute { baseDb with bots := setBotCost baseDb.bots 1 (some 999) } 1 1 10 101 0).2.users =
        (deployRoute baseDb 1 1 10 101 0).2.users ∧
      (deployRoute { baseDb with bots := setBotCost baseDb.bots 1 (some 999) } 1 1 10 101 0).2.txs =
        (deployRoute baseDb 1 1 10 101 0).2.txs) :=
  have h := deploy_uses_request_cost baseDb 1 1 10 101 0 userAlice botA acct1
    (by decide) (by decide) (by decide) (by decide) (by decide) (by decide)
  ⟨⟨h.1, h.2.1, h.2.2.1, h.2.2.2.1⟩, h.2.2.2.2 (some 999)⟩

/-- Effects of the provisioning failure handler: the deployment is marked
failed with the error text as its log, the user's balance is credited with the
deployment row's cost, the account usage is decremented through
`updateHerokuUsage`, and no Ledger Entry is written. -/
theorem deployFailHandler_effects (db : Db) (did acctId : Nat) (msg : String)
    (dep : Deployment)
    (hd : findDeployment db.deployments did = some dep) :
    (deployFailHandler db did acctId msg).users =
      incrementCoins db.users dep.user_id dep.cost ∧
    (deployFailHandler db did acctId msg).accounts =
      updateHerokuUsage db.accounts acctId false ∧
    (deployFailHandler db did acctId msg).txs = db.txs ∧
    (findDeployment (deployFailHandler db did acctId msg).deployments did).map
      (fun d => d.status) = some DeployStatus.failed ∧
    (findDeployment (deployFailHandler db did acctId msg).deployments did).map
      (fun d => d.logs) = some (failLogs msg) := by
  have hupd : findDeployment (updateDeployments db.deployments did
      (fun d => { d with status := DeployStatus.failed, logs := failLogs msg })) did =
      some { dep with status := DeployStatus.failed, logs := failLogs msg } :=
    findDeployment_updateDeployments_self db.deployments did _ dep (fun d => rfl) hd
  have hstate : deployFailHandler db did acctId msg =
      { db with
        deployments := updateDeployments db.deployments did
          (fun d => { d with status := DeployStatus.failed, logs := failLogs msg }),
        users := incrementCoins db.users dep.user_id dep.cost,
        accounts := updateHerokuUsage db.accounts acctId false } := by
    simp only [deployFailHandler]
    rw [hupd]
  refine ⟨?_, ?_, ?_, ?_, ?_⟩
  · rw [hstate]
  · rw [hstate]
  · rw [hstate]
  · rw [hstate]
    show (findDeployment (updateDeployments db.deployments did _) did).map _ = _
    rw [hupd]
    rfl
  · rw [hstate]
    show (findDeployment (updateDeployments db.deployments did _) did).map _ = _
    rw [hupd]
    rfl

/-- Effects of the detached provisioning sequence whenever one of its external
calls throws: some error message ends up in the log of the now-failed
deployment, the balance is credited back with the row's cost, the account
usage is decremented, and the ledger is untouched. -/
theorem deployToHeroku_fail_effects (db : Db) (did : Nat) (appName : String) (bot : Bot)
    (acctId : Nat) (ext : ProvisionOutcomes) (dep : Deployment)
    (hd : findDeployment db.deployments did = some dep)
    (hfail : provisionRaises bot ext = true) :
    ∃ msg,
      (deployToHeroku db did appName bot acctId ext).users =
        incrementCoins db.users dep.user_id dep.cost ∧
      (deployToHeroku db did appName bot acctId ext).accounts =
        updateHerokuUsage db.accounts acctId false ∧
      (deployToHeroku db did appName bot acctId ext).txs = db.txs ∧
      (findDeployment (deployToHeroku db did appName bot acctId ext).deployments did).map
        (fun d => d.status) = some DeployStatus.failed ∧
      (findDeployment (deployToHeroku db did appName bot acctId ext).deployments did).map
        (fun d => d.logs) = some (failLogs msg) := by
  have h0 : findDeployment (withDeployments db (updateDeployments db.deployments did
      (provisionStep0 appName))).deployments did = some (provisionStep0 appName dep) :=
    findDeployment_updateDeployments_self db.deployments did _ dep (fun d => rfl) hd
  cases hca : ext.createApp with
  | some msg =>
    have hrun : deployToHeroku db did appName bot acctId ext =
        deployFailHandler (withDeployments db (updateDeployments db.deployments did
          (provisionStep0 appName))) did acctId msg := by
      simp only [deployToHeroku, hca]
    obtain ⟨hus, hacc, htx, hst, hlg⟩ := deployFailHandler_effects _ did acctId msg _ h0
    exact ⟨msg, by rw [hrun]; exact hus, by rw [hrun]; exact hacc,
      by rw [hrun]; exact htx, by rw [hrun]; exact hst, by rw [hrun]; exact hlg⟩
  | none =>
    have h1 : findDeployment (withDeployments db (updateDeployments (updateDeployments
        db.deployments did (provisionStep0 appName)) did provisionStep1)).deployments did =
        some (provisionStep1 (provisionStep0 appName dep)) :=
      findDeployment_updateDeployments_self _ did _ _ (fun d => rfl) h0
    cases hdg : ext.deployFromGithub with
    | some msg =>
      have hrun : deployToHeroku db did appName bot acctId ext =
          deployFailHandler (withDeployments db (updateDeployments (updateDeployments
            db.deployments did (provisionStep0 appName)) did provisionStep1))
            did acctId msg := by
        simp only [deployToHeroku, hca, hdg]
        rfl
      obtain ⟨hus, hacc, htx, hst, hlg⟩ := deployFailHandler_effects _ did acctId msg _ h1
      exact ⟨msg, by rw [hrun]; exact hus, by rw [hrun]; exact hacc,
        by rw [hrun]; exact htx, by rw [hrun]; exact hst, by rw [hrun]; exact hlg⟩
    | none =>
      have h2 : findDeployment (withDeployments db (updateDeployments (updateDeployments
          (updateDeployments db.deployments did (provisionStep0 appName)) did
          provisionStep1) did provisionStep2)).deployments did =
          some (provisionStep2 (provisionStep1 (provisionStep0 appName dep))) :=
        findDeployment_updateDeployments_self _ did _ _ (fun d => rfl) h1
      simp only [provisionRaises, hca, hdg, Option.isSome_none, Bool.false_or] at hfail
      rcases Bool.and_eq_true_iff.mp hfail with ⟨hcond, hsome⟩
      cases hsc : ext.setConfigVars with
      | none => rw [hsc] at hsome; cases hsome
      | some msg =>
        have hrun : deployToHeroku db did appName bot acctId ext =
            deployFailHandler (withDeployments db (updateDeployments (updateDeployments
              (updateDeployments db.deployments did (provisionStep0 appName)) did
              provisionStep1) did provisionStep2)) did acctId msg := by
          simp only [deployToHeroku, hca, hdg, hcond, hsc, if_true]
          rfl
        obtain ⟨hus, hacc, htx, hst, hlg⟩ := deployFailHandler_effects _ did acctId msg _ h2
        exact ⟨msg, by rw [hrun]; exact hus, by rw [hrun]; exact hacc,
          by rw [hrun]; exact htx, by rw [hrun]; exact hst, by rw [hrun]; exact hlg⟩

/-- C1 (amended): for every deployment whose detached provisioning sequence
raises an exception, the system sets the deployment's status to failed,
records the error message in its log (replacing the previous text), refunds
the debited coins by incrementing the balance directly — no credit Ledger
Entry is written, the ledger keeps exactly the original debit — so the user's
balance after failure equals the balance immediately before the deployment
request, and decrements the allocated account's used_count exactly once, back
to its pre-request value. -/
theorem deploy_failure_compensation (db : Db) (userId botId : Nat) (c : Int)
    (newId now : Nat) (appName : String) (ext : ProvisionOutcomes)
    (user : User) (bot : Bot) (acct : HerokuAccount)
    (hu : findUser db.users userId = some user)
    (hnl : ¬ user.coins < c)
    (hb : db.bots.find? (fun b => b.id == botId && b.is_approved) = some bot)
    (ha : getAvailableHerokuAccount db.accounts = some acct)
    (hcap : usedOf acct < maxOf acct)
    (hfa : findAccount db.accounts acct.id = some acct)
    (hfresh : findDeployment db.deployments newId = none)
    (hnn : 0 ≤ usedOf acct)
    (hfail : provisionRaises bot ext = true) :
    ∃ msg,
      (findDeployment (deployThenProvision db userId botId c newId now appName bot
        acct.id ext).deployments newId).map (fun d => d.status) =
        some DeployStatus.failed ∧
      (findDeployment (deployThenProvision db userId botId c newId now appName bot
        acct.id ext).deployments newId).map (fun d => d.logs) = some (failLogs msg) ∧
      userCoins (deployThenProvision db userId botId c newId now appName bot
        acct.id ext).users userId = some user.coins ∧
      (findAccount (deployThenProvision db userId botId c newId now appName bot
        acct.id ext).accounts acct.id).map usedOf = some (usedOf acct) ∧
      (deployThenProvision db userId botId c newId now appName bot acct.id ext).txs =
        db.txs ++ [deploymentDebitTx userId c bot now] := by
  have hroute := deployRoute_success_effects db userId botId c newId now user bot acct
    hu hnl hb ha hcap
  have hdep0 : findDeployment ((deployRoute db userId botId c newId now).2).deployments
      newId = some (newDeploymentRow newId userId botId c acct.id bot) := by
    rw [hroute]
    exact findDeployment_append_fresh db.deployments _ newId hfresh
      (by simp [newDeploymentRow])
  obtain ⟨msg, hus, hacc, htx, hst, hlg⟩ := deployToHeroku_fail_effects
    ((deployRoute db userId botId c newId now).2) newId appName bot acct.id ext _
    hdep0 hfail
  refine ⟨msg, ?_, ?_, ?_, ?_, ?_⟩
  · exact hst
  · exact hlg
  · have husers : (deployThenProvision db userId botId c newId now appName bot
        acct.id ext).users =
        incrementCoins ((deployRoute db userId botId c newId now).2).users userId c :=
      hus
    rw [husers, hroute]
    show userCoins (incrementCoins (setCoins db.users userId (user.coins - c)) userId c)
      userId = some user.coins
    have hfu1 : findUser (setCoins db.users userId (user.coins - c)) userId =
        some { user with coins := user.coins - c } :=
      findUser_setCoins_self db.users userId _ user hu
    rw [userCoins_incrementCoins_self _ userId c _ hfu1]
    show some (user.coins - c + c) = some user.coins
    rw [sub_add_cancel]
  · have haccs : (deployThenProvision db userId botId c newId now appName bot
        acct.id ext).accounts =
        updateHerokuUsage ((deployRoute db userId botId c newId now).2).accounts
          acct.id false :=
      hacc
    rw [haccs, hroute]
    show (findAccount (updateHerokuUsage (updateHerokuUsage db.accounts acct.id true)
      acct.id false) acct.id).map usedOf = some (usedOf acct)
    have hfa1 : findAccount (updateHerokuUsage db.accounts acct.id true) acct.id =
        some { acct with used_count := some (acct.used_count.getD 0 + 1) } := by
      have h := findAccount_updateHerokuUsage_self db.accounts acct.id true acct hfa
      simpa using h
    have hfa2 := findAccount_updateHerokuUsage_self _ acct.id false _ hfa1
    rw [hfa2]
    have hnn' : (0 : Int) ≤ acct.used_count.getD 0 := by
      unfold usedOf at hnn
      exact hnn
    have harith : max (0 : Int) (acct.used_count.getD 0 + 1 - 1) =
        acct.used_count.getD 0 := by
      have hsimp : acct.used_count.getD 0 + 1 - 1 = acct.used_count.getD 0 := by ring
      rw [hsimp]
      exact max_eq_right hnn'
    simp [usedOf, harith]
    exact hnn'
  · exact htx.trans (by rw [hroute])

/-- Counterexample to C1 as stated: deployment 101 fails during provisioning;
coins are restored by a direct balance increment, but no credit Ledger Entry
is written — the ledger holds only the original debit and no entry has the
user as receiver, contradicting the claimed refund-by-Ledger-Entry. -/
theorem deploy_failure_no_refund_entry_counterexample :
    (findDeployment (deployThenProvision baseDb 1 1 10 101 0 "app-a" botA 1
      extFailCreate).deployments 101).map (fun d => d.status) =
      some DeployStatus.failed ∧
    userCoins (deployThenProvision baseDb 1 1 10 101 0 "app-a" botA 1
      extFailCreate).users 1 = some 100 ∧
    (deployThenProvision baseDb 1 1 10 101 0 "app-a" botA 1 extFailCreate).txs =
      [deploymentDebitTx 1 10 botA 0] ∧
    ((deployThenProvision baseDb 1 1 10 101 0 "app-a" botA 1 extFailCreate).txs.filter
      (fun t => t.receiver_id == some 1)).length = 0 := by
  decide

/-- Witness for C1 (amended): the concrete failing deployment of the
counterexample state, through the general compensation theorem. -/
theorem deploy_failure_compensation_witness :
    ∃ msg,
      (findDeployment (deployThenProvision baseDb 1 1 10 101 0 "app-a" botA
        acct1.id extFailCreate).deployments 101).map (fun d => d.status) =
        some DeployStatus.failed ∧
      (findDeployment (deployThenProvision baseDb 1 1 10 101 0 "app-a" botA
        acct1.id extFailCreate).deployments 101).map (fun d => d.logs) =
        some (failLogs msg) ∧
      userCoins (deployThenProvision baseDb 1 1 10 101 0 "app-a" botA
        acct1.id extFailCreate).users 1 = some userAlice.coins ∧
      (findAccount (deployThenProvision baseDb 1 1 10 101 0 "app-a" botA
        acct1.id extFailCreate).accounts acct1.id).map usedOf = some (usedOf acct1) ∧
      (deployThenProvision baseDb 1 1 10 101 0 "app-a" botA acct1.id extFailCreate).txs =
        baseDb.txs ++ [deploymentDebitTx 1 10 botA 0] :=
  deploy_failure_compensation baseDb 1 1 10 101 0 "app-a" extFailCreate userAlice botA
    acct1 (by decide) (by decide) (by decide) (by decide) (by decide) (by decide)
    (by decide) (by decide) (by decide)

/-- A hit in the left list is the hit in the appended list. -/
theorem findUser_append_left (l1 l2 : List User) (uid : Nat) (u : User)
    (h : findUser l1 uid = some u) :
    findUser (l1 ++ l2) uid = some u := by
  unfold findUser at h ⊢
  simp [List.find?_append, h]

/-- A freshly appended user row is found when the left list has no hit. -/
theorem findUser_append_right_fresh (l1 : List User) (u2 : User) (uid : Nat)
    (h : findUser l1 uid = none) (hid : (u2.id == uid) = true) :
    findUser (l1 ++ [u2]) uid = some u2 := by
  unfold findUser at h ⊢
  rw [List.find?_append, h]
  simp [hid]

/-- The email-verification route of src/unnamed/part_002 writes no Ledger
Entry and changes no balance, whatever its outcome. -/
theorem verifyEmail_preserves_ledger_and_coins (db : Db) (email code : String)
    (uid : Nat) :
    (verifyEmail db email code).2.txs = db.txs ∧
    userCoins (verifyEmail db email code).2.users uid = userCoins db.users uid := by
  unfold verifyEmail
  cases hf : db.users.find? (fun u => u.email == email) with
  | none => exact ⟨rfl, rfl⟩
  | some u =>
    by_cases hv : u.is_verified = true
    · simp only [hv, if_true]
      refine ⟨?_, ?_⟩ <;> trivial
    · have hv' : u.is_verified = false := by
        cases h2 : u.is_verified
        · rfl
        · exact absurd h2 hv
      simp only [hv', Bool.false_eq_true, if_false]
      by_cases hc : u.verification_code ≠ some code
      · simp only [if_pos hc]
        refine ⟨?_, ?_⟩ <;> trivial
      · simp only [if_neg hc]
        refine ⟨by trivial, ?_⟩
        exact userCoins_map_preserve db.users _ uid
          (fun v => by by_cases h : (v.id == u.id) = true <;> simp [h])
          (fun v => by by_cases h : (v.id == u.id) = true <;> simp [h])

/-- Counterexample to C6 as stated: immediately after a signup that uses
Alice's referral code — before any email verification — Alice's balance has
already risen from 100 to 110 and a `referral` Ledger Entry exists, so the
referral credit is issued at signup time, not at verification time. -/
theorem referral_credit_before_verification_counterexample :
    (signup signupDb "new@x" "pw" "new" (some "AAAA") 2 "123456" "ZZZZ" 5).ok = true ∧
    userCoins (signup signupDb "new@x" "pw" "new" (some "AAAA") 2 "123456" "ZZZZ"
      5).db.users 1 = some 110 ∧
    ((signup signupDb "new@x" "pw" "new" (some "AAAA") 2 "123456" "ZZZZ"
      5).db.txs.filter (fun t => t.tx_type == "referral")).length = 1 ∧
    userCoins signupDb.users 1 = some 100 := by
  decide

/-- C6 (amended): per src/unnamed/part_002, for every signup that uses a valid
referral code, the referral credit to the referrer (one `referral` Ledger
Entry and a +10 balance increment) is issued immediately at signup; the
referred user starts with 20 initial coins and no `referral_bonus` Ledger
Entry is written; email verification issues no coin credit and writes no
Ledger Entry. -/
theorem referral_credit_at_signup (db : Db) (email pw username rc : String)
    (newUserId : Nat) (verifCode newRefCode : String) (now : Nat) (ref : User)
    (hemail : email ≠ "")
    (hpw : pw ≠ "")
    (hnew : db.users.find? (fun u => u.email == email) = none)
    (href : db.users.find? (fun u => u.referral_code == rc) = some ref)
    (hrid : findUser db.users ref.id = some ref)
    (hnid : findUser db.users newUserId = none)
    (hne : ref.id ≠ newUserId) :
    (signup db email pw username (some rc) newUserId verifCode newRefCode now).ok =
      true ∧
    userCoins (signup db email pw username (some rc) newUserId verifCode
      newRefCode now).db.users ref.id = some (ref.coins + 10) ∧
    userCoins (signup db email pw username (some rc) newUserId verifCode
      newRefCode now).db.users newUserId = some 20 ∧
    (signup db email pw username (some rc) newUserId verifCode newRefCode now).db.txs =
      db.txs ++ [referralTx ref.id email now] ∧
    (∀ (db2 : Db) (e c2 : String) (uid : Nat),
      (verifyEmail db2 e c2).2.txs = db2.txs ∧
      userCoins (verifyEmail db2 e c2).2.users uid = userCoins db2.users uid) := by
  have hb0 : (email == "") = false := by rw [beq_eq_false_iff_ne]; exact hemail
  have hb1 : (pw == "") = false := by rw [beq_eq_false_iff_ne]; exact hpw
  have husers : (signup db email pw username (some rc) newUserId verifCode
      newRefCode now).db.users =
      incrementCoins (db.users ++ [signupRow email 20 newRefCode (some ref.id)
        verifCode newUserId]) ref.id 10 := by
    simp [signup, hb0, hb1, hnew, href]
  refine ⟨?_, ?_, ?_, ?_, ?_⟩
  · simp [signup, hb0, hb1, hnew, href]
  · rw [husers]
    exact userCoins_incrementCoins_self _ ref.id 10 ref
      (findUser_append_left db.users _ ref.id ref hrid)
  · rw [husers]
    rw [userCoins_incrementCoins_other _ ref.id newUserId 10 (fun h => hne h.symm)]
    unfold userCoins
    rw [findUser_append_right_fresh db.users _ newUserId hnid (by simp [signupRow])]
    rfl
  · simp [signup, hb0, hb1, hnew, href]
  · intro db2 e c2 uid
    exact verifyEmail_preserves_ledger_and_coins db2 e c2 uid

/-- Witness for C6 (amended): a concrete signup with Alice's code, followed by
the referred user's email verification, which changes neither ledger nor
balances. -/
theorem referral_credit_at_signup_witness :
    (signup signupDb "new@x" "pw" "new" (some "AAAA") 2 "123456" "ZZZZ" 5).ok = true ∧
    userCoins (signup signupDb "new@x" "pw" "new" (some "AAAA") 2 "123456" "ZZZZ"
      5).db.users userAlice.id = some (userAlice.coins + 10) ∧
    userCoins (signup signupDb "new@x" "pw" "new" (some "AAAA") 2 "123456" "ZZZZ"
      5).db.users 2 = some 20 ∧
    (signup signupDb "new@x" "pw" "new" (some "AAAA") 2 "123456" "ZZZZ" 5).db.txs =
      signupDb.txs ++ [referralTx userAlice.id "new@x" 5] ∧
    ((verifyEmail (signup signupDb "new@x" "pw" "new" (some "AAAA") 2 "123456" "ZZZZ"
        5).db "new@x" "123456").2.txs =
      (signup signupDb "new@x" "pw" "new" (some "AAAA") 2 "123456" "ZZZZ" 5).db.txs ∧
      userCoins (verifyEmail (signup signupDb "new@x" "pw" "new" (some "AAAA") 2
        "123456" "ZZZZ" 5).db "new@x" "123456").2.users userAlice.id =
      userCoins (signup signupDb "new@x" "pw" "new" (some "AAAA") 2 "123456" "ZZZZ"
        5).db.users userAlice.id) :=
  have h := referral_credit_at_signup signupDb "new@x" "pw" "new" "AAAA" 2 "123456"
    "ZZZZ" 5 userAlice (by decide) (by decide) (by decide) (by decide) (by decide)
    (by decide) (by decide)
  ⟨h.1, h.2.1, h.2.2.1, h.2.2.2.1, h.2.2.2.2 _ "new@x" "123456" userAlice.id⟩

/-- C7 evaluated at the failing input: the update-env route validates the
variables, persists them, and debits the user a second time, but the
application-name argument handed to the external configuration and restart
calls is undefined (`some none`) — the route's select projection omits
`heroku_app_name` — although the deployment's stored application name is
kermhost-abc. -/
theorem update_env_undefined_app_name :
    (updateEnvRoute updateEnvDb 5 2 [("TOKEN", "tok")] true 9).herokuAppArg =
      some none ∧
    (findDeployment updateEnvDb.deployments 5).map (fun d => d.heroku_app_name) =
      some (some "kermhost-abc") ∧
    (updateEnvRoute updateEnvDb 5 2 [("TOKEN", "tok")] true 9).outcome =
      UpdateEnvOutcome.success (userBob.coins - 10) ∧
    (updateEnvRoute updateEnvDb 5 2 [("TOKEN", "tok")] true 9).db.txs =
      updateEnvDb.txs ++ [updateEnvTx 2 10 9] := by
  decide

/-- C9 evaluated at the failing sequence (deploy 101, provisioning failure
with compensation, deploy 102 to active, user-deletion of the failed row 101,
emergency stop): account 1 reaches the stop with used_count 0 while
deployment 102 is still active, and the unclamped `used_count - 1` write of
stop-all-bots leaves the counter at -1, violating 0 <= used_count. -/
theorem stop_all_bots_drives_counter_negative :
    (findAccount c9AfterStop.accounts 1).map usedOf = some (-1) ∧
    (findDeployment c9AfterStop.deployments 102).map (fun d => d.status) =
      some DeployStatus.stopped := by
  decide

end KermHost
